import Mathlib

/-
Verification of the speculative-decoding dashboard animation engine
(src/components/dashboard-body.tsx, src/components/chat-stream.tsx,
src/lib/types.ts) via a shallow embedding in Lean 4.

Conventions of the embedding:
  - JS numbers used as counters are Nat; metric values (rates, savings)
    are modelled as exact rationals.
  - React useState fields and useRef cells are gathered into explicit
    state records; each setState / ref mutation becomes a record update.
  - A setTimeout callback chain is modelled as a sequence of pure state
    transformers; firing a pending timer applies the transformer for the
    whole chain link (the event loop is single threaded, so one firing
    runs to completion).
-/

-- ── Token decisions (dashboard-body.tsx lines 14-15) ──

inductive TokenType
  | accepted
  | rejected
  | corrected
deriving DecidableEq

structure Token where
  text : String
  type : TokenType
deriving DecidableEq

-- ── Animation steps (dashboard-body.tsx lines 88-90) ──

inductive AnimStep
  | accepted (token : Token) (index : Nat)
  | rejection (rejected : Token) (corrected : Token) (rejIdx : Nat) (corrIdx : Nat)
deriving DecidableEq

/--
Embedding of buildSteps (dashboard-body.tsx lines 92-106; the copy in
chat-stream.tsx lines 107-121 is identical). The source scans an array
with a cursor i; here the suffix of the array from the cursor is passed
as a list together with the cursor value, so the while loop becomes
structural recursion.
-/
def buildStepsAux : List Token → Nat → List AnimStep
  | [], _ => []
  | [t], i => [AnimStep.accepted t i]
  | t :: t2 :: rest, i =>
    if t.type = TokenType.rejected ∧ t2.type = TokenType.corrected then
      AnimStep.rejection t t2 i (i + 1) :: buildStepsAux rest (i + 2)
    else
      AnimStep.accepted t i :: buildStepsAux (t2 :: rest) (i + 1)

def buildSteps (tokens : List Token) : List AnimStep :=
  buildStepsAux tokens 0

-- ── Word counting (dashboard-body.tsx lines 120-122) ──

/--
Model of the JS split-on-whitespace: cut the character list at every
whitespace character, keeping the empty fragments that arise between
consecutive separators (exactly what splitting on a single-char
separator does; the filter below then discards them).
-/
def splitWsAux : List Char → List Char → List (List Char)
  | [], acc => [acc.reverse]
  | c :: rest, acc =>
    if c.isWhitespace then acc.reverse :: splitWsAux rest []
    else splitWsAux rest (c :: acc)

/--
Embedding of countWords: text.trim().split on whitespace, drop empty
fragments, take the length. Trimming is subsumed by dropping the empty
fragments produced at the ends.
-/
def countWords (text : String) : Nat :=
  ((splitWsAux text.data []).filter (fun w => w ≠ [])).length

-- ── Packet events (network-visualizer types, dashboard-body.tsx lines 156-175) ──

inductive Lane
  | draft
  | verify
deriving DecidableEq

inductive PacketDirection
  | ltr
  | rtl
deriving DecidableEq

structure PacketEvent where
  id : Nat
  direction : PacketDirection
  lane : Lane
  color : String
deriving DecidableEq

/-- The packetWordBuffer ref: one fractional word counter per lane. -/
structure WordBuffer where
  draft : Nat
  verify : Nat
deriving DecidableEq

def bufferGet (b : WordBuffer) : Lane → Nat
  | Lane.draft => b.draft
  | Lane.verify => b.verify

def bufferSet (b : WordBuffer) (lane : Lane) (v : Nat) : WordBuffer :=
  match lane with
  | Lane.draft => { b with draft := v }
  | Lane.verify => { b with verify := v }

def WORDS_PER_PACKET : Nat := 3

/-- The packet-related cells of the component: packetId ref,
packetWordBuffer ref, and the packets state array. -/
structure PacketState where
  packetId : Nat
  buffer : WordBuffer
  packets : List PacketEvent
deriving DecidableEq

/-- Embedding of emitPacket (dashboard-body.tsx lines 156-160). -/
def emitPacket (p : PacketState) (lane : Lane) (color : String) : PacketState :=
  { p with
    packetId := p.packetId + 1,
    packets := p.packets ++
      [{ id := p.packetId,
         direction := if lane = Lane.draft then PacketDirection.ltr else PacketDirection.rtl,
         lane := lane, color := color }] }

/--
The while loop of emitPacketForWords, given enough fuel. Each iteration
consumes WORDS_PER_PACKET = 3 from the buffer, so fuel equal to the
buffer value always suffices (drainFuel_spec below characterises it
independently of the fuel).
-/
def drainFuel : Nat → PacketState → Lane → String → PacketState
  | 0, p, _, _ => p
  | fuel + 1, p, lane, color =>
    if WORDS_PER_PACKET ≤ bufferGet p.buffer lane then
      let p2 := emitPacket p lane color
      drainFuel fuel
        { p2 with buffer := bufferSet p2.buffer lane (bufferGet p2.buffer lane - WORDS_PER_PACKET) }
        lane color
    else p

/-- Embedding of emitPacketForWords (dashboard-body.tsx lines 162-171). -/
def emitPacketForWords (p : PacketState) (lane : Lane) (color : String) (text : String) :
    PacketState :=
  let words := countWords text
  if words = 0 then p
  else
    let p1 := { p with buffer := bufferSet p.buffer lane (bufferGet p.buffer lane + words) }
    drainFuel (bufferGet p1.buffer lane) p1 lane color

/-- Packets currently held for one lane. -/
def lanePackets (p : PacketState) (lane : Lane) : Nat :=
  (p.packets.filter (fun pk => pk.lane = lane)).length

/-- A sequence of emitPacketForWords dispatches: (lane, color, text) triples. -/
def dispatchCalls (p : PacketState) (calls : List (Lane × String × String)) : PacketState :=
  calls.foldl (fun st c => emitPacketForWords st c.1 c.2.1 c.2.2) p

/-- Cumulative word count of the texts dispatched to one lane. -/
def laneWords (lane : Lane) (calls : List (Lane × String × String)) : Nat :=
  ((calls.filter (fun c => c.1 = lane)).map (fun c => countWords c.2.2)).sum

-- ── Render state (dashboard-body.tsx lines 124-149) ──

inductive NetworkPhase
  | idle
  | drafting
  | verifying
  | correcting
  | complete
deriving DecidableEq

inductive RenderPhase
  | appearing
  | striking
  | struck
  | hidden
  | settled
deriving DecidableEq

structure VisibleToken where
  text : String
  type : TokenType
  phase : RenderPhase
deriving DecidableEq

/-- Count record, field order as in the source object literal. -/
structure Counts where
  accepted : Nat
  rejected : Nat
  corrected : Nat
  drafted : Nat
deriving DecidableEq

/--
The DashboardBody component state: every useState value and useRef cell
that the animation engine reads or writes (layout-only state such as
sidebarOpen is omitted).
-/
structure DashState where
  isStreaming : Bool
  phase : NetworkPhase
  prompt : String
  visibleTokens : List VisibleToken
  done : Bool
  counts : Counts
  acceptanceRate : ℚ
  totalInferenceTimeSavedMs : ℚ
  costSavingsDollars : ℚ
  pstate : PacketState
  generatedOutputTokens : Nat
  acceptedDraftTokens : Nat
  stepIdx : Nat
deriving DecidableEq

/-- Initial component state (the useState defaults and ref initialisers). -/
def initDashState : DashState :=
  { isStreaming := false
    phase := NetworkPhase.idle
    prompt := "Explain the theory of relativity."
    visibleTokens := []
    done := false
    counts := ⟨0, 0, 0, 0⟩
    acceptanceRate := 82
    totalInferenceTimeSavedMs := 320
    costSavingsDollars := 0.42
    pstate := ⟨0, ⟨0, 0⟩, []⟩
    generatedOutputTokens := 0
    acceptedDraftTokens := 0
    stepIdx := 0 }

/-- Embedding of handlePacketDone (dashboard-body.tsx lines 173-175). -/
def handlePacketDone (s : DashState) (i : Nat) : DashState :=
  { s with pstate := { s.pstate with packets := s.pstate.packets.filter (fun pk => pk.id ≠ i) } }

def dispatchShared (s : DashState) (lane : Lane) (color : String) (text : String) : DashState :=
  { s with pstate := emitPacketForWords s.pstate lane color text }

-- Colors used by the engine.
def colorGreen : String := "hsl(142, 71%, 45%)"
def colorBlue : String := "hsl(217, 91%, 60%)"
def colorYellow : String := "hsl(48, 96%, 53%)"

/--
Update of the last element of the visible-token list, as performed by
copy[copy.length - 1] = ... in the source (no effect on an empty list).
-/
def setLastPhase : List VisibleToken → RenderPhase → List VisibleToken
  | [], _ => []
  | [t], ph => [{ t with phase := ph }]
  | t :: rest, ph => t :: setLastPhase rest ph

-- ── Demo-mode phase scheduler (dashboard-body.tsx lines 178-246) ──

/-- Accepted-step branch of processDemoStep (lines 188-199). -/
def demoAccepted (s : DashState) (t : Token) : DashState :=
  let s := { s with phase := NetworkPhase.drafting }
  let s := dispatchShared s Lane.draft colorGreen t.text
  let s := dispatchShared s Lane.verify colorBlue t.text
  let s := { s with visibleTokens :=
      s.visibleTokens ++
        ([{ text := t.text, type := t.type, phase := RenderPhase.settled }] : List VisibleToken) }
  { s with counts :=
      { s.counts with
        drafted := s.counts.drafted + 1
        accepted := if t.type = TokenType.accepted then s.counts.accepted + 1 else s.counts.accepted
        corrected := if t.type = TokenType.corrected then s.counts.corrected + 1 else s.counts.corrected } }

/-- Rejection step, immediate part (lines 201-204). -/
def demoRejShow (s : DashState) (rej : Token) : DashState :=
  let s := { s with phase := NetworkPhase.drafting }
  let s := dispatchShared s Lane.draft colorGreen rej.text
  let s := { s with visibleTokens :=
      s.visibleTokens ++
        ([{ text := rej.text, type := TokenType.rejected, phase := RenderPhase.appearing }] : List VisibleToken) }
  { s with counts := { s.counts with drafted := s.counts.drafted + 1 } }

/-- Rejection step, callback after REJECTED_SHOW_DELAY (lines 206-214). -/
def demoRejStrike (s : DashState) (rej : Token) : DashState :=
  let s := { s with phase := NetworkPhase.verifying }
  let s := dispatchShared s Lane.verify colorYellow rej.text
  let s := { s with visibleTokens := setLastPhase s.visibleTokens RenderPhase.striking }
  { s with counts := { s.counts with rejected := s.counts.rejected + 1 } }

/-- Rejection step, callback after STRIKE_PAUSE (lines 216-221). -/
def demoRejHide (s : DashState) : DashState :=
  { s with visibleTokens := setLastPhase s.visibleTokens RenderPhase.hidden }

/-- Rejection step, callback after the hidden pause (lines 223-231). -/
def demoRejCorrect (s : DashState) (corr : Token) : DashState :=
  let s := { s with phase := NetworkPhase.correcting }
  let s := dispatchShared s Lane.draft colorBlue corr.text
  let s := dispatchShared s Lane.verify colorBlue corr.text
  let s := { s with visibleTokens :=
      (s.visibleTokens.filter (fun (t : VisibleToken) => t.phase ≠ RenderPhase.hidden)) ++
        ([{ text := corr.text, type := TokenType.corrected, phase := RenderPhase.appearing }] : List VisibleToken) }
  { s with counts := { s.counts with
      drafted := s.counts.drafted + 1, corrected := s.counts.corrected + 1 } }

/-- Rejection step, settle callback (lines 233-239). -/
def demoRejSettle (s : DashState) : DashState :=
  let s := { s with visibleTokens := setLastPhase s.visibleTokens RenderPhase.settled }
  { s with phase := NetworkPhase.drafting }

/--
Full effect of one step on the state: the accepted branch runs in one
firing; the rejection branch is the composition of its five chained
timer callbacks, fired in order.
-/
def processStepOnState (s : DashState) (step : AnimStep) : DashState :=
  match step with
  | AnimStep.accepted t _ => demoAccepted s t
  | AnimStep.rejection rej corr _ _ =>
    demoRejSettle (demoRejCorrect (demoRejHide (demoRejStrike (demoRejShow s rej) rej)) corr)

/--
Embedding of processDemoStep (lines 178-246) at step granularity: reads
the step at the cursor, advances the cursor, applies the full step
effect; when the cursor is exhausted it sets done and phase=complete.
The Bool records whether the firing scheduled a further timer (both
non-terminal branches do; the terminal branch returns without
scheduling).
-/
def processDemoStepS (steps : List AnimStep) (s : DashState) : DashState × Bool :=
  if h : s.stepIdx < steps.length then
    (processStepOnState { s with stepIdx := s.stepIdx + 1 } steps[s.stepIdx], true)
  else
    ({ s with done := true, phase := NetworkPhase.complete }, false)

/-- The demo timer loop: fire up to n pending timers, stopping when a
firing schedules no successor. -/
def runDemo (steps : List AnimStep) : Nat → DashState → DashState
  | 0, s => s
  | n + 1, s =>
    match processDemoStepS steps s with
    | (s2, true) => runDemo steps n s2
    | (s2, false) => s2

-- ── Streaming protocol (src/lib/types.ts) ──

structure TokenEvent where
  text : String
  type : TokenType
  token_id : Option Nat := none
  logprob : Option ℚ := none
deriving DecidableEq

structure RoundEvent where
  round_num : Nat
  drafted : Nat
  accepted : Nat
  corrected : Nat
  verification_time_ms : ℚ
  acceptance_rate : ℚ
deriving DecidableEq

structure InferenceResponse where
  request_id : String
  generated_text : String
  tokens : List TokenEvent
  total_tokens : Nat
  draft_tokens_generated : Nat
  draft_tokens_accepted : Nat
  generation_time_ms : ℚ
  acceptance_rate : ℚ
  speculation_rounds : Nat
deriving DecidableEq

inductive StreamMessage
  | token (data : TokenEvent)
  | round (data : RoundEvent)
  | done (data : InferenceResponse)
  | error (message : String)
deriving DecidableEq

-- ── Live-mode state mutations (dashboard-body.tsx lines 249-392) ──

def ESTIMATED_CLOUD_COST_PER_1K_TOKENS_USD : ℚ := 0.5
def ESTIMATED_TIME_SAVED_PER_ACCEPTED_TOKEN_MS : ℚ := 12

/-- Embedding of updateLiveSavingsFromAcceptedTokens (lines 333-339). -/
def updateLiveSavings (s : DashState) : DashState :=
  { s with
    totalInferenceTimeSavedMs :=
      (s.acceptedDraftTokens : ℚ) * ESTIMATED_TIME_SAVED_PER_ACCEPTED_TOKEN_MS
    costSavingsDollars :=
      ((s.acceptedDraftTokens : ℚ) / 1000) * ESTIMATED_CLOUD_COST_PER_1K_TOKENS_USD }

/--
Update of the last visible token matching a predicate, as performed by
findLastIndex followed by an index assignment (no effect when nothing
matches).
-/
def setLastMatching (ts : List VisibleToken) (p : VisibleToken → Bool) (ph : RenderPhase) :
    List VisibleToken :=
  (setFirst ts.reverse).reverse
where
  setFirst : List VisibleToken → List VisibleToken
    | [] => []
    | t :: rest => if p t then { t with phase := ph } :: rest else t :: setFirst rest

/-- Accepted branch of processTokenQueue (lines 280-286). -/
def liveAccepted (s : DashState) (tok : TokenEvent) : DashState :=
  let s := { s with phase := NetworkPhase.drafting }
  let s := dispatchShared s Lane.draft colorGreen tok.text
  let s := dispatchShared s Lane.verify colorBlue tok.text
  let s := { s with visibleTokens :=
      s.visibleTokens ++
        ([{ text := tok.text, type := TokenType.accepted, phase := RenderPhase.settled }] :
          List VisibleToken) }
  { s with counts := { s.counts with
      drafted := s.counts.drafted + 1, accepted := s.counts.accepted + 1 } }

/-- Rejected branch of processTokenQueue, immediate part (lines 287-292). -/
def liveRejShow (s : DashState) (tok : TokenEvent) : DashState :=
  let s := { s with phase := NetworkPhase.verifying }
  let s := dispatchShared s Lane.draft colorGreen tok.text
  let s := dispatchShared s Lane.verify colorYellow tok.text
  let s := { s with visibleTokens :=
      s.visibleTokens ++
        ([{ text := tok.text, type := TokenType.rejected, phase := RenderPhase.appearing }] :
          List VisibleToken) }
  { s with counts := { s.counts with
      drafted := s.counts.drafted + 1, rejected := s.counts.rejected + 1 } }

/-- Rejected branch, strike callback (lines 295-301). -/
def liveRejStrike (s : DashState) : DashState :=
  { s with visibleTokens :=
      (setLastMatching s.visibleTokens
        (fun t => t.type = TokenType.rejected ∧ t.phase = RenderPhase.appearing)
        RenderPhase.striking) }

/-- Rejected branch, hide callback (lines 302-308). -/
def liveRejHide (s : DashState) : DashState :=
  { s with visibleTokens :=
      (setLastMatching s.visibleTokens
        (fun t => t.type = TokenType.rejected ∧ t.phase = RenderPhase.striking)
        RenderPhase.hidden) }

/-- Rejected branch, removal callback (lines 309-312). -/
def liveRejFilter (s : DashState) : DashState :=
  { s with visibleTokens :=
      s.visibleTokens.filter (fun (t : VisibleToken) => t.phase ≠ RenderPhase.hidden) }

/-- Corrected branch of processTokenQueue, immediate part (lines 315-320). -/
def liveCorrShow (s : DashState) (tok : TokenEvent) : DashState :=
  let s := { s with phase := NetworkPhase.correcting }
  let s := dispatchShared s Lane.draft colorBlue tok.text
  let s := dispatchShared s Lane.verify colorBlue tok.text
  let s := { s with visibleTokens :=
      s.visibleTokens ++
        ([{ text := tok.text, type := TokenType.corrected, phase := RenderPhase.appearing }] :
          List VisibleToken) }
  { s with counts := { s.counts with
      drafted := s.counts.drafted + 1, corrected := s.counts.corrected + 1 } }

/-- Corrected branch, settle callback (lines 322-327). -/
def liveCorrSettle (s : DashState) : DashState :=
  { s with visibleTokens := setLastPhase s.visibleTokens RenderPhase.settled }

/-- Full effect of animating one live token: the immediate part of its
branch followed by that branch's chained timer callbacks in order. -/
def liveTokenFull (s : DashState) (tok : TokenEvent) : DashState :=
  match tok.type with
  | TokenType.accepted => liveAccepted s tok
  | TokenType.rejected => liveRejFilter (liveRejHide (liveRejStrike (liveRejShow s tok)))
  | TokenType.corrected => liveCorrSettle (liveCorrShow s tok)

/-- Round-message handler (lines 355-357). -/
def roundShared (s : DashState) (r : RoundEvent) : DashState :=
  { s with acceptanceRate := r.acceptance_rate * 100 }

/-- Metric part of the done-message handler (lines 358-363): verbatim
acceptance rate, authoritative accepted-draft-token count, recompute of
the local savings estimates. -/
def doneMetricsShared (s : DashState) (d : InferenceResponse) : DashState :=
  updateLiveSavings
    { s with
      acceptanceRate := d.acceptance_rate * 100
      acceptedDraftTokens := d.draft_tokens_accepted }

/--
Effect on the shared state of an error: the same three mutations are
performed by the error-message branch (lines 375-379) and by the second
trailing callback passed to streamInference (lines 381-385).
Modelled from the spec: src/lib/api is not part of this slice; per the
submission boundary in the spec the callbacks register in the order
on-message, on-error, on-close, so the second trailing callback is the
transport error callback.
-/
def streamErrorShared (s : DashState) : DashState :=
  { s with done := true, phase := NetworkPhase.idle, isStreaming := false }

/--
Effect on the shared state of the transport closing (lines 386-388).
Modelled from the spec: with the on-message, on-error, on-close
registration order of the spec, the third trailing callback is the
close callback; its body only clears the streaming flag.
-/
def streamCloseShared (s : DashState) : DashState :=
  { s with isStreaming := false }

-- ── Status event log (chat-stream.tsx lines 136-171) ──

inductive StatusEventType
  | draft
  | verified
  | rejected
  | corrected
deriving DecidableEq

structure StatusEvent where
  id : Nat
  type : StatusEventType
  token : String
  timestamp : Nat
deriving DecidableEq

/-- Last n elements of a list, as produced by slice(-n). -/
def lastN (n : Nat) (l : List StatusEvent) : List StatusEvent :=
  l.drop (l.length - n)

/-- Embedding of addEvent (chat-stream.tsx lines 165-171): increment the
event id ref, append, keep the last 5 entries. The state is the pair
(eventIdRef, statusEvents). -/
def addEvent (st : Nat × List StatusEvent) (ty : StatusEventType) (tok : String)
    (ts : Nat) : Nat × List StatusEvent :=
  let n := st.1 + 1
  (n, lastN 5 (st.2 ++ [{ id := n, type := ty, token := tok, timestamp := ts }]))

/-- A sequence of addEvent calls. -/
def addEvents (st : Nat × List StatusEvent)
    (calls : List (StatusEventType × String × Nat)) : Nat × List StatusEvent :=
  calls.foldl (fun acc c => addEvent acc c.1 c.2.1 c.2.2) st

/-- The full history of events that a call sequence appends, with the
ids the ref would assign starting after n. -/
def eventsOf : Nat → List (StatusEventType × String × Nat) → List StatusEvent
  | _, [] => []
  | n, c :: rest =>
    { id := n + 1, type := c.1, token := c.2.1, timestamp := c.2.2 } :: eventsOf (n + 1) rest

-- ── Runs, timers and re-submission (dashboard-body.tsx lines 249-392) ──

/--
The variables local to one handleSubmit closure: the tokenQueue array,
the processing flag, and whether the transport opened by this run is
still connected (cleanup sets it to false).
-/
structure RunLocal where
  queue : List TokenEvent
  processing : Bool
  connected : Bool
deriving DecidableEq

/--
Kinds of pending setTimeout callbacks created by a live run. procQueue
stands for the callback chain that continues processTokenQueue after the
current token finishes animating; checkDone for the 100 ms poller
scheduled by the done handler. Neither is stored in timeoutRef, so
handleSubmit does not cancel them.
-/
inductive CbKind
  | procQueue
  | checkDone
deriving DecidableEq

structure PendingCb where
  run : Nat
  kind : CbKind
deriving DecidableEq

/--
The whole live system: the shared component state (React state and
refs, written by whichever callback runs), the per-run closure
variables indexed by run number, and the multiset of pending
uncancelled timers. The run created by the latest submit is the last
entry of runs.
-/
structure World where
  shared : DashState
  runs : List RunLocal
  pending : List PendingCb
deriving DecidableEq

def currentRun (w : World) : Nat := w.runs.length - 1

/--
State reset performed synchronously at the top of handleSubmit
(lines 250-262). Note what is not reset: packets, packetId,
acceptanceRate, stepIdx.
-/
def resetSharedForSubmit (s : DashState) (userPrompt : String) : DashState :=
  { s with
    prompt := userPrompt
    visibleTokens := []
    done := false
    counts := ⟨0, 0, 0, 0⟩
    phase := NetworkPhase.idle
    isStreaming := true
    totalInferenceTimeSavedMs := 0
    costSavingsDollars := 0
    pstate := { s.pstate with buffer := ⟨0, 0⟩ }
    generatedOutputTokens := 0
    acceptedDraftTokens := 0 }

/--
Embedding of handleSubmit (lines 249-265, 341, 391): reset the shared
state, clear the tracked timer, run the previous transport cleanup,
open a fresh run. In live mode timeoutRef is never assigned, so the
clearTimeout call cancels nothing; the bare setTimeout callbacks of the
previous run (the pending list) are left untouched. Cleanup closes the
transport of the previous run.
-/
def worldSubmit (w : World) (userPrompt : String) : World :=
  let shared := resetSharedForSubmit w.shared userPrompt
  let runs :=
    match w.runs.getLast? with
    | none => w.runs
    | some r => w.runs.set (w.runs.length - 1) { r with connected := false }
  { shared := shared
    runs := runs ++ [{ queue := [], processing := false, connected := true }]
    pending := w.pending }

/--
One invocation of the processTokenQueue closure of run r (lines
271-331): with an empty queue it clears the processing flag and
returns; otherwise it shifts one token, animates it to completion on
the shared state, and leaves its continuation pending.
-/
def runProcQueue (w : World) (r : Nat) : World :=
  match w.runs[r]? with
  | none => w
  | some rl =>
    match rl.queue with
    | [] => { w with runs := w.runs.set r { rl with processing := false } }
    | tok :: rest =>
      { shared := liveTokenFull w.shared tok
        runs := w.runs.set r { rl with queue := rest, processing := true }
        pending := w.pending ++ [{ run := r, kind := CbKind.procQueue }] }

/--
One invocation of the checkDone closure of run r (lines 365-374): if
that run has drained its queue and is not processing, mark the run
complete on the shared state; otherwise poll again later.
-/
def runCheckDone (w : World) (r : Nat) : World :=
  match w.runs[r]? with
  | none => w
  | some rl =>
    if rl.queue = [] ∧ rl.processing = false then
      { w with shared :=
          { w.shared with done := true, phase := NetworkPhase.complete, isStreaming := false } }
    else { w with pending := w.pending ++ [{ run := r, kind := CbKind.checkDone }] }

/-- Fire the i-th pending timer: remove it from the pending list and run
its callback. -/
def fireCb (w : World) (i : Nat) : World :=
  match w.pending[i]? with
  | none => w
  | some cb =>
    let w2 : World := { w with pending := w.pending.eraseIdx i }
    match cb.kind with
    | CbKind.procQueue => runProcQueue w2 cb.run
    | CbKind.checkDone => runCheckDone w2 cb.run

/-- Token-message branch of the onMessage handler (lines 344-354). -/
def handleTokenMsg (w : World) (t : TokenEvent) : World :=
  let r := currentRun w
  match w.runs[r]? with
  | none => w
  | some rl =>
    let sh := w.shared
    let sh :=
      if t.type = TokenType.accepted then
        updateLiveSavings { sh with acceptedDraftTokens := sh.acceptedDraftTokens + 1 }
      else sh
    let sh :=
      if t.type = TokenType.accepted ∨ t.type = TokenType.corrected then
        { sh with generatedOutputTokens := sh.generatedOutputTokens + 1 }
      else sh
    let rl2 : RunLocal := { rl with queue := rl.queue ++ [t] }
    let w2 : World := { w with shared := sh, runs := w.runs.set r rl2 }
    if rl2.processing then w2 else runProcQueue w2 r

/-- Done-message branch (lines 358-374): metric overrides, then an
immediate synchronous checkDone call. -/
def handleDoneMsg (w : World) (d : InferenceResponse) : World :=
  runCheckDone { w with shared := doneMetricsShared w.shared d } (currentRun w)

/-- Embedding of the onMessage callback (lines 343-380), delivered to the
current run while its transport is connected. -/
def worldDeliver (w : World) (m : StreamMessage) : World :=
  match w.runs[currentRun w]? with
  | none => w
  | some rl =>
    if rl.connected then
      match m with
      | StreamMessage.token t => handleTokenMsg w t
      | StreamMessage.round rd => { w with shared := roundShared w.shared rd }
      | StreamMessage.done d => handleDoneMsg w d
      | StreamMessage.error _ => { w with shared := streamErrorShared w.shared }
    else w

-- ── Concrete re-submission trace (for the restart-discipline claim) ──

def traceTok1 : TokenEvent := { text := " alpha", type := TokenType.rejected }
def traceTok2 : TokenEvent := { text := " beta", type := TokenType.accepted }

/-- First run started. -/
def traceW1 : World :=
  worldSubmit { shared := initDashState, runs := [], pending := [] } "first prompt"

/-- A rejected token arrives and is animated; its continuation callback
stays pending. -/
def traceW2 : World := worldDeliver traceW1 (StreamMessage.token traceTok1)

/-- A second token arrives while processing, so it is only queued. -/
def traceW3 : World := worldDeliver traceW2 (StreamMessage.token traceTok2)

/-- The user re-submits: new run seeded, old transport cleaned up, but
the old continuation timer is still pending. -/
def traceW4 : World := worldSubmit traceW3 "second prompt"

-- ── Concrete values used in the worked examples and witnesses ──

/-- The four-token prefix from the worked example of the spec. -/
def exampleTokens : List Token :=
  [{ text := "The", type := TokenType.accepted },
   { text := " theory", type := TokenType.accepted },
   { text := " the early", type := TokenType.rejected },
   { text := " 1905", type := TokenType.corrected }]

/-- A done message reporting an acceptance rate of 0.75. -/
def doneExample : InferenceResponse :=
  { request_id := "r1", generated_text := "", tokens := [], total_tokens := 0,
    draft_tokens_generated := 8, draft_tokens_accepted := 6, generation_time_ms := 0,
    acceptance_rate := 0.75, speculation_rounds := 2 }

/-- A full status event log (5 entries). -/
def fiveEvents : List StatusEvent :=
  [{ id := 1, type := StatusEventType.draft, token := "a", timestamp := 0 },
   { id := 2, type := StatusEventType.verified, token := "b", timestamp := 0 },
   { id := 3, type := StatusEventType.rejected, token := "c", timestamp := 0 },
   { id := 4, type := StatusEventType.corrected, token := "d", timestamp := 0 },
   { id := 5, type := StatusEventType.draft, token := "e", timestamp := 0 }]

/-- A state that has reached the terminal transition. -/
def termDemoState : DashState :=
  { initDashState with done := true, phase := NetworkPhase.complete }

/-- A finished live world with a stale checkDone poller still pending. -/
def termWorld : World :=
  { shared := termDemoState
    runs := [{ queue := [], processing := false, connected := false }]
    pending := [{ run := 0, kind := CbKind.checkDone }] }

/-- A packet throttler state right after a buffer reset. -/
def pInit : PacketState := { packetId := 0, buffer := { draft := 0, verify := 0 }, packets := [] }

def wCalls : List (Lane × String × String) :=
  [(Lane.draft, colorGreen, "a b"), (Lane.draft, colorGreen, "c d")]

def wTokens : List Token :=
  [{ text := " the early", type := TokenType.rejected },
   { text := " 1905", type := TokenType.corrected }]

-- ── Lemmas about the packet throttler ──

theorem bufferGet_bufferSet_same (b : WordBuffer) (lane : Lane) (v : Nat) :
    bufferGet (bufferSet b lane v) lane = v := by
  cases lane <;> rfl

theorem bufferGet_bufferSet_other (b : WordBuffer) (lane lane2 : Lane) (v : Nat)
    (h : lane2 ≠ lane) : bufferGet (bufferSet b lane v) lane2 = bufferGet b lane2 := by
  cases lane <;> cases lane2 <;> simp_all [bufferGet, bufferSet]

theorem emitPacket_buffer (p : PacketState) (lane : Lane) (color : String) :
    (emitPacket p lane color).buffer = p.buffer := rfl

theorem lanePackets_emitPacket_same (p : PacketState) (lane : Lane) (color : String) :
    lanePackets (emitPacket p lane color) lane = lanePackets p lane + 1 := by
  simp [lanePackets, emitPacket, List.filter_append]

theorem lanePackets_emitPacket_other (p : PacketState) (lane lane2 : Lane) (color : String)
    (h : lane2 ≠ lane) :
    lanePackets (emitPacket p lane color) lane2 = lanePackets p lane2 := by
  simp [lanePackets, emitPacket, List.filter_append, Ne.symm h]

theorem drainFuel_spec (fuel : Nat) :
    ∀ (p : PacketState) (lane : Lane) (color : String),
      bufferGet p.buffer lane ≤ fuel →
      bufferGet (drainFuel fuel p lane color).buffer lane = bufferGet p.buffer lane % 3 ∧
      lanePackets (drainFuel fuel p lane color) lane =
        lanePackets p lane + bufferGet p.buffer lane / 3 ∧
      (∀ lane2, lane2 ≠ lane →
        bufferGet (drainFuel fuel p lane color).buffer lane2 = bufferGet p.buffer lane2 ∧
        lanePackets (drainFuel fuel p lane color) lane2 = lanePackets p lane2) := by
  induction fuel with
  | zero =>
    intro p lane color h
    have hb : bufferGet p.buffer lane = 0 := Nat.le_zero.mp h
    simp [drainFuel, hb]
  | succ n ih =>
    intro p lane color h
    by_cases hc : WORDS_PER_PACKET ≤ bufferGet p.buffer lane
    · have hstep : drainFuel (n + 1) p lane color =
          drainFuel n
            { emitPacket p lane color with
              buffer := bufferSet (emitPacket p lane color).buffer lane
                (bufferGet (emitPacket p lane color).buffer lane - WORDS_PER_PACKET) }
            lane color := by
        simp [drainFuel, hc]
      have hw3 : WORDS_PER_PACKET = 3 := rfl
      set q : PacketState :=
        { emitPacket p lane color with
          buffer := bufferSet (emitPacket p lane color).buffer lane
            (bufferGet (emitPacket p lane color).buffer lane - WORDS_PER_PACKET) } with hqdef
      have hqb : bufferGet q.buffer lane = bufferGet p.buffer lane - 3 := by
        simp [hqdef, bufferGet_bufferSet_same, emitPacket_buffer, hw3]
      have hqb2 : ∀ lane2, lane2 ≠ lane → bufferGet q.buffer lane2 = bufferGet p.buffer lane2 := by
        intro lane2 hne
        simp [hqdef, bufferGet_bufferSet_other _ _ _ _ hne, emitPacket_buffer]
      have hqp : lanePackets q lane = lanePackets p lane + 1 := by
        have : lanePackets q lane = lanePackets (emitPacket p lane color) lane := rfl
        rw [this, lanePackets_emitPacket_same]
      have hqp2 : ∀ lane2, lane2 ≠ lane → lanePackets q lane2 = lanePackets p lane2 := by
        intro lane2 hne
        have : lanePackets q lane2 = lanePackets (emitPacket p lane color) lane2 := rfl
        rw [this, lanePackets_emitPacket_other _ _ _ _ hne]
      have hqle : bufferGet q.buffer lane ≤ n := by
        rw [hqb]; rw [hw3] at hc; omega
      obtain ⟨ih1, ih2, ih3⟩ := ih q lane color hqle
      rw [hw3] at hc
      refine ⟨?_, ?_, ?_⟩
      · rw [hstep, ih1, hqb]; omega
      · rw [hstep, ih2, hqb, hqp]; omega
      · intro lane2 hne
        obtain ⟨f1, f2⟩ := ih3 lane2 hne
        exact ⟨by rw [hstep, f1, hqb2 lane2 hne], by rw [hstep, f2, hqp2 lane2 hne]⟩
    · have hstep : drainFuel (n + 1) p lane color = p := by
        simp [drainFuel, hc]
      have hw3 : WORDS_PER_PACKET = 3 := rfl
      rw [hw3] at hc
      refine ⟨by rw [hstep]; omega, by rw [hstep]; omega, ?_⟩
      intro lane2 hne
      exact ⟨by rw [hstep], by rw [hstep]⟩

theorem emitPacketForWords_spec (p : PacketState) (lane : Lane) (color text : String)
    (hb : bufferGet p.buffer lane < 3) :
    bufferGet (emitPacketForWords p lane color text).buffer lane =
      (bufferGet p.buffer lane + countWords text) % 3 ∧
    lanePackets (emitPacketForWords p lane color text) lane =
      lanePackets p lane + (bufferGet p.buffer lane + countWords text) / 3 := by
  by_cases hw : countWords text = 0
  · have : emitPacketForWords p lane color text = p := by
      simp [emitPacketForWords, hw]
    rw [this, hw]
    constructor <;> omega
  · have hstep : emitPacketForWords p lane color text =
        drainFuel (bufferGet p.buffer lane + countWords text)
          { p with buffer := bufferSet p.buffer lane (bufferGet p.buffer lane + countWords text) }
          lane color := by
      simp [emitPacketForWords, hw, bufferGet_bufferSet_same]
    have hle : bufferGet ({ p with
        buffer := bufferSet p.buffer lane (bufferGet p.buffer lane + countWords text) } :
          PacketState).buffer lane ≤ bufferGet p.buffer lane + countWords text := by
      simp [bufferGet_bufferSet_same]
    obtain ⟨h1, h2, _⟩ := drainFuel_spec _ _ lane color hle
    rw [hstep]
    constructor
    · rw [h1]; simp [bufferGet_bufferSet_same]
    · rw [h2]
      have hp : lanePackets { p with
          buffer := bufferSet p.buffer lane (bufferGet p.buffer lane + countWords text) } lane =
          lanePackets p lane := rfl
      rw [hp]
      simp [bufferGet_bufferSet_same]

theorem emitPacketForWords_frame (p : PacketState) (lane lane2 : Lane) (color text : String)
    (hne : lane2 ≠ lane) :
    bufferGet (emitPacketForWords p lane color text).buffer lane2 = bufferGet p.buffer lane2 ∧
    lanePackets (emitPacketForWords p lane color text) lane2 = lanePackets p lane2 := by
  by_cases hw : countWords text = 0
  · have : emitPacketForWords p lane color text = p := by
      simp [emitPacketForWords, hw]
    rw [this]; exact ⟨rfl, rfl⟩
  · have hstep : emitPacketForWords p lane color text =
        drainFuel (bufferGet p.buffer lane + countWords text)
          { p with buffer := bufferSet p.buffer lane (bufferGet p.buffer lane + countWords text) }
          lane color := by
      simp [emitPacketForWords, hw, bufferGet_bufferSet_same]
    have hle : bufferGet ({ p with
        buffer := bufferSet p.buffer lane (bufferGet p.buffer lane + countWords text) } :
          PacketState).buffer lane ≤ bufferGet p.buffer lane + countWords text := by
      simp [bufferGet_bufferSet_same]
    obtain ⟨_, _, h3⟩ := drainFuel_spec _ _ lane color hle
    obtain ⟨f1, f2⟩ := h3 lane2 hne
    rw [hstep]
    constructor
    · rw [f1]
      simp [bufferGet_bufferSet_other _ _ _ _ hne]
    · rw [f2]
      simp [lanePackets]

theorem dispatchCalls_lane_spec :
    ∀ (calls : List (Lane × String × String)) (p : PacketState) (lane : Lane),
      bufferGet p.buffer lane < 3 →
      bufferGet (dispatchCalls p calls).buffer lane =
        (bufferGet p.buffer lane + laneWords lane calls) % 3 ∧
      lanePackets (dispatchCalls p calls) lane =
        lanePackets p lane + (bufferGet p.buffer lane + laneWords lane calls) / 3 := by
  intro calls
  induction calls with
  | nil =>
    intro p lane hb
    simp [dispatchCalls, laneWords]
    constructor <;> omega
  | cons c rest ih =>
    intro p lane hb
    have hfold : dispatchCalls p (c :: rest) =
        dispatchCalls (emitPacketForWords p c.1 c.2.1 c.2.2) rest := rfl
    by_cases hlane : c.1 = lane
    · subst hlane
      obtain ⟨e1, e2⟩ := emitPacketForWords_spec p c.1 c.2.1 c.2.2 hb
      have hb2 : bufferGet (emitPacketForWords p c.1 c.2.1 c.2.2).buffer c.1 < 3 := by
        rw [e1]; omega
      obtain ⟨r1, r2⟩ := ih (emitPacketForWords p c.1 c.2.1 c.2.2) c.1 hb2
      have hlw : laneWords c.1 (c :: rest) = countWords c.2.2 + laneWords c.1 rest := by
        simp [laneWords, List.filter_cons]
      rw [hfold, hlw]
      constructor
      · rw [r1, e1]; omega
      · rw [r2, e2, e1]; omega
    · have hne : lane ≠ c.1 := fun h => hlane h.symm
      obtain ⟨f1, f2⟩ := emitPacketForWords_frame p c.1 lane c.2.1 c.2.2 hne
      have hb2 : bufferGet (emitPacketForWords p c.1 c.2.1 c.2.2).buffer lane < 3 := by
        rw [f1]; exact hb
      obtain ⟨r1, r2⟩ := ih (emitPacketForWords p c.1 c.2.1 c.2.2) lane hb2
      have hlw : laneWords lane (c :: rest) = laneWords lane rest := by
        simp [laneWords, List.filter_cons, hlane]
      rw [hfold, hlw]
      exact ⟨by rw [r1, f1], by rw [r2, f2, f1]⟩

-- ── Lemmas about the status event log ──

theorem lastN_of_le (n : Nat) (l : List StatusEvent) (h : l.length ≤ n) : lastN n l = l := by
  simp [lastN, Nat.sub_eq_zero_of_le h]

theorem lastN_length_le (n : Nat) (l : List StatusEvent) : (lastN n l).length ≤ n := by
  simp [lastN]
  omega

theorem lastN_append_absorb (n : Nat) (xs ys : List StatusEvent) :
    lastN n (lastN n xs ++ ys) = lastN n (xs ++ ys) := by
  by_cases h : xs.length ≤ n
  · rw [lastN_of_le n xs h]
  · push_neg at h
    unfold lastN
    rw [List.drop_append_eq_append_drop, List.drop_append_eq_append_drop, List.drop_drop]
    congr 1
    · congr 1
      simp [List.length_append, List.length_drop]
      omega
    · congr 1
      simp [List.length_append, List.length_drop]
      omega

theorem addEvents_spec :
    ∀ (calls : List (StatusEventType × String × Nat)) (n : Nat) (acc : List StatusEvent),
      acc.length ≤ 5 →
      addEvents (n, acc) calls = (n + calls.length, lastN 5 (acc ++ eventsOf n calls)) := by
  intro calls
  induction calls with
  | nil =>
    intro n acc h
    simp [addEvents, eventsOf, lastN_of_le 5 acc h]
  | cons c rest ih =>
    intro n acc h
    have hfold : addEvents (n, acc) (c :: rest) =
        addEvents (addEvent (n, acc) c.1 c.2.1 c.2.2) rest := rfl
    have haddev : addEvent (n, acc) c.1 c.2.1 c.2.2 =
        (n + 1, lastN 5 (acc ++
          [{ id := n + 1, type := c.1, token := c.2.1, timestamp := c.2.2 }])) := rfl
    rw [hfold, haddev, ih (n + 1) _ (lastN_length_le 5 _)]
    rw [lastN_append_absorb, List.append_assoc]
    have hev : eventsOf n (c :: rest) =
        { id := n + 1, type := c.1, token := c.2.1, timestamp := c.2.2 } ::
          eventsOf (n + 1) rest := rfl
    rw [hev]
    have hn : n + 1 + rest.length = n + (rest.length + 1) := by omega
    simp [hn, List.singleton_append, List.length_cons]

-- ── Claim theorems ──

/--
C1: the step segmenter scans the token sequence left to right; at any
cursor position, if the current token is tagged rejected and an
immediately following token exists and is tagged corrected, it emits one
Rejection step holding the pair and advances the cursor by two;
otherwise it emits one Accepted step wrapping the single current token
(whatever its tag, including a rejected token with no corrected
successor) and advances the cursor by one.
-/
theorem buildSteps_scan_rule (tokens : List Token) (i : Nat) (h : i < tokens.length) :
    buildSteps tokens = buildStepsAux (tokens.drop 0) 0 ∧
    (∀ h2 : i + 1 < tokens.length,
      tokens[i].type = TokenType.rejected → tokens[i + 1].type = TokenType.corrected →
      buildStepsAux (tokens.drop i) i =
        AnimStep.rejection tokens[i] tokens[i + 1] i (i + 1) ::
          buildStepsAux (tokens.drop (i + 2)) (i + 2)) ∧
    ((tokens[i].type ≠ TokenType.rejected ∨ tokens.length ≤ i + 1 ∨
        (∀ h2 : i + 1 < tokens.length, tokens[i + 1].type ≠ TokenType.corrected)) →
      buildStepsAux (tokens.drop i) i =
        AnimStep.accepted tokens[i] i :: buildStepsAux (tokens.drop (i + 1)) (i + 1)) := by
  refine ⟨rfl, ?_, ?_⟩
  · intro h2 hrej hcorr
    have hd1 : tokens.drop i = tokens[i] :: tokens.drop (i + 1) := List.drop_eq_getElem_cons h
    have hd2 : tokens.drop (i + 1) = tokens[i + 1] :: tokens.drop (i + 2) :=
      List.drop_eq_getElem_cons h2
    rw [hd1, hd2]
    simp only [buildStepsAux]
    rw [if_pos ⟨hrej, hcorr⟩]
  · intro hcase
    by_cases h2 : i + 1 < tokens.length
    · have hd1 : tokens.drop i = tokens[i] :: tokens.drop (i + 1) := List.drop_eq_getElem_cons h
      have hd2 : tokens.drop (i + 1) = tokens[i + 1] :: tokens.drop (i + 2) :=
        List.drop_eq_getElem_cons h2
      have hcond : ¬(tokens[i].type = TokenType.rejected ∧
          tokens[i + 1].type = TokenType.corrected) := by
        rcases hcase with hr | hl | hc
        · exact fun hand => hr hand.1
        · omega
        · exact fun hand => hc h2 hand.2
      rw [hd1, hd2]
      simp only [buildStepsAux]
      rw [if_neg hcond]
    · have hd1 : tokens.drop i = tokens[i] :: tokens.drop (i + 1) := List.drop_eq_getElem_cons h
      have hnil : tokens.drop (i + 1) = [] := List.drop_eq_nil_of_le (by omega)
      rw [hd1, hnil]
      simp [buildStepsAux]

/-- Witness for the segmenter rule at a concrete rejected/corrected pair. -/
theorem buildSteps_scan_rule_witness :
    buildStepsAux (wTokens.drop 0) 0 =
      AnimStep.rejection { text := " the early", type := TokenType.rejected }
        { text := " 1905", type := TokenType.corrected } 0 1 ::
        buildStepsAux (wTokens.drop 2) 2 :=
  (buildSteps_scan_rule wTokens 0 (by decide)).2.1 (by decide) (by decide) (by decide)

/--
C2 (amended): fully processing one Rejection step adds exactly 2 to the
drafted count, 1 to the rejected count and 1 to the corrected count;
fully processing one Accepted step adds exactly 1 to the drafted count,
plus 1 to the accepted count when its token is tagged accepted, plus 1
to the corrected count when it is tagged corrected, and nothing beyond
the drafted increment when it is tagged rejected (the trailing-rejected
fallback step).
-/
theorem step_count_contribution :
    (∀ (s : DashState) (rej corr : Token) (ri ci : Nat),
      (processStepOnState s (AnimStep.rejection rej corr ri ci)).counts =
        { accepted := s.counts.accepted
          rejected := s.counts.rejected + 1
          corrected := s.counts.corrected + 1
          drafted := s.counts.drafted + 2 }) ∧
    (∀ (s : DashState) (t : Token) (i : Nat),
      (processStepOnState s (AnimStep.accepted t i)).counts =
        { accepted := s.counts.accepted + (if t.type = TokenType.accepted then 1 else 0)
          rejected := s.counts.rejected
          corrected := s.counts.corrected + (if t.type = TokenType.corrected then 1 else 0)
          drafted := s.counts.drafted + 1 }) := by
  constructor
  · intro s rej corr ri ci
    simp only [processStepOnState, demoRejSettle, demoRejCorrect, demoRejHide, demoRejStrike,
      demoRejShow, dispatchShared]
  · intro s t i
    simp only [processStepOnState, demoAccepted, dispatchShared]
    rcases t with ⟨tx, ty⟩
    cases ty <;> simp [Counts.mk.injEq]

/--
C2 as stated fails: the token sequence consisting of one rejected token
segments into an Accepted step wrapping a rejected-tagged token, and
fully processing that step increments neither the accepted count nor
the corrected count.
-/
theorem accepted_step_rejected_tag_counterexample :
    buildSteps [{ text := "x", type := TokenType.rejected }] =
      [AnimStep.accepted { text := "x", type := TokenType.rejected } 0] ∧
    ¬((processStepOnState initDashState
          (AnimStep.accepted { text := "x", type := TokenType.rejected } 0)).counts.accepted =
        initDashState.counts.accepted + 1 ∨
      (processStepOnState initDashState
          (AnimStep.accepted { text := "x", type := TokenType.rejected } 0)).counts.corrected =
        initDashState.counts.corrected + 1) := by decide

/--
C9: on the four-token worked example the segmenter produces exactly the
steps Accepted(The), Accepted( theory), Rejection( the early, 1905); and
after the scheduler fully processes those steps (three step firings plus
the terminal firing) the visible tokens are exactly The, theory, 1905,
all settled, and the counts are drafted 4, accepted 2, rejected 1,
corrected 1.
-/
theorem worked_example :
    buildSteps exampleTokens =
      [AnimStep.accepted { text := "The", type := TokenType.accepted } 0,
       AnimStep.accepted { text := " theory", type := TokenType.accepted } 1,
       AnimStep.rejection { text := " the early", type := TokenType.rejected }
         { text := " 1905", type := TokenType.corrected } 2 3] ∧
    (runDemo (buildSteps exampleTokens) 4 initDashState).visibleTokens.map VisibleToken.text =
      ["The", " theory", " 1905"] ∧
    (runDemo (buildSteps exampleTokens) 4 initDashState).visibleTokens.map VisibleToken.phase =
      [RenderPhase.settled, RenderPhase.settled, RenderPhase.settled] ∧
    (runDemo (buildSteps exampleTokens) 4 initDashState).counts = ⟨2, 1, 1, 4⟩ ∧
    (runDemo (buildSteps exampleTokens) 4 initDashState).done = true ∧
    (runDemo (buildSteps exampleTokens) 4 initDashState).phase = NetworkPhase.complete := by
  decide

/--
C5: for each lane, dispatching any sequence of texts through
emitPacketForWords starting from a reset buffer leaves the lane buffer
at W mod 3 and has emitted exactly floor(W div 3) packets for that lane,
where W is the cumulative whitespace-delimited non-empty word count of
the texts dispatched to that lane. Since the statement holds for every
call list, it holds at every intermediate point of a longer dispatch
sequence (every prefix is itself a call list, and dispatchCalls over an
append is dispatchCalls run in two stages).
-/
theorem packet_throttler_invariant (p0 : PacketState)
    (calls : List (Lane × String × String)) (lane : Lane)
    (hreset : bufferGet p0.buffer lane = 0) :
    bufferGet (dispatchCalls p0 calls).buffer lane = laneWords lane calls % 3 ∧
    lanePackets (dispatchCalls p0 calls) lane =
      lanePackets p0 lane + laneWords lane calls / 3 := by
  have h := dispatchCalls_lane_spec calls p0 lane (by rw [hreset]; omega)
  rw [hreset] at h
  simpa using h

/-- Witness for the packet invariant: two 2-word texts on the draft lane
emit one packet and leave one word buffered. -/
theorem packet_throttler_invariant_witness :
    bufferGet (dispatchCalls pInit wCalls).buffer Lane.draft = laneWords Lane.draft wCalls % 3 ∧
    lanePackets (dispatchCalls pInit wCalls) Lane.draft =
      lanePackets pInit Lane.draft + laneWords Lane.draft wCalls / 3 :=
  packet_throttler_invariant pInit wCalls Lane.draft rfl

/--
C6: after any sequence of addEvent calls starting from the empty log the
status event log holds at most 5 entries and equals the last-5 suffix of
the full append-ordered event history (so survivors keep FIFO order and
evictions always remove the oldest entries); moreover one addEvent call
on a full log drops exactly the head (the lowest-id, earliest-appended
entry) and appends the new event, while on a non-full log it only
appends.
-/
theorem event_log_bound_and_eviction :
    (∀ calls : List (StatusEventType × String × Nat),
      (addEvents (0, []) calls).2.length ≤ 5 ∧
      (addEvents (0, []) calls).2 = lastN 5 (eventsOf 0 calls)) ∧
    (∀ (st : Nat × List StatusEvent) (ty : StatusEventType) (tok : String) (ts : Nat),
      st.2.length = 5 →
      (addEvent st ty tok ts).2 =
        st.2.drop 1 ++ [{ id := st.1 + 1, type := ty, token := tok, timestamp := ts }]) ∧
    (∀ (st : Nat × List StatusEvent) (ty : StatusEventType) (tok : String) (ts : Nat),
      st.2.length < 5 →
      (addEvent st ty tok ts).2 =
        st.2 ++ [{ id := st.1 + 1, type := ty, token := tok, timestamp := ts }]) := by
  refine ⟨?_, ?_, ?_⟩
  · intro calls
    have h := addEvents_spec calls 0 [] (by simp)
    rw [h]
    exact ⟨lastN_length_le 5 _, by simp⟩
  · intro st ty tok ts hlen
    have haddev : (addEvent st ty tok ts).2 =
        lastN 5 (st.2 ++ [{ id := st.1 + 1, type := ty, token := tok, timestamp := ts }]) := rfl
    rw [haddev]
    unfold lastN
    rw [List.drop_append_eq_append_drop]
    simp [hlen]
  · intro st ty tok ts hlen
    have haddev : (addEvent st ty tok ts).2 =
        lastN 5 (st.2 ++ [{ id := st.1 + 1, type := ty, token := tok, timestamp := ts }]) := rfl
    rw [haddev]
    apply lastN_of_le
    simp
    omega

/-- Witness for the event log bound: an append to a full log of 5 drops
the oldest entry. -/
theorem event_log_bound_and_eviction_witness :
    (addEvent (5, fiveEvents) StatusEventType.draft "f" 0).2 =
      fiveEvents.drop 1 ++
        [{ id := 5 + 1, type := StatusEventType.draft, token := "f", timestamp := 0 }] :=
  event_log_bound_and_eviction.2.1 (5, fiveEvents) StatusEventType.draft "f" 0 rfl

/--
C4: once a run is terminal, nothing advances it until the next submit:
firing the demo step processor on a state whose step cursor is
exhausted and which is already done with phase complete returns the
state unchanged and schedules no further timer; and firing any pending
queue-drain or done-poll callback of a live run whose queue is empty
and idle, when the shared state is already done, complete and not
streaming, leaves the shared state unchanged.
-/
theorem terminal_quiescence :
    (∀ (steps : List AnimStep) (s : DashState),
      steps.length ≤ s.stepIdx → s.done = true → s.phase = NetworkPhase.complete →
      processDemoStepS steps s = (s, false)) ∧
    (∀ (w : World) (i : Nat) (cb : PendingCb) (rl : RunLocal),
      w.pending[i]? = some cb → w.runs[cb.run]? = some rl →
      rl.queue = [] → rl.processing = false →
      w.shared.done = true → w.shared.phase = NetworkPhase.complete →
      w.shared.isStreaming = false →
      (fireCb w i).shared = w.shared) := by
  constructor
  · intro steps s hlen hdone hphase
    have hnl : ¬s.stepIdx < steps.length := by omega
    simp only [processDemoStepS, dif_neg hnl]
    have hs : ({ s with done := true, phase := NetworkPhase.complete } : DashState) = s := by
      cases s
      simp_all
    rw [hs]
  · intro w i cb rl hcb hrl hq hp hdone hphase hstream
    have hsh : ({ w.shared with done := true, phase := NetworkPhase.complete, isStreaming := false } : DashState) = w.shared := by
      cases hs : w.shared
      rw [hs] at hdone hphase hstream
      simp_all
    cases cb with
    | mk r kind =>
      cases kind
      · simp only [fireCb, hcb]
        simp only [runProcQueue]
        have hruns : ({ w with pending := w.pending.eraseIdx i } : World).runs = w.runs := rfl
        rw [hruns, hrl]
        simp [hq]
      · simp only [fireCb, hcb]
        simp only [runCheckDone]
        have hruns : ({ w with pending := w.pending.eraseIdx i } : World).runs = w.runs := rfl
        rw [hruns, hrl]
        simp [hq, hp, hsh]

/-- Witness for terminal quiescence at a concrete finished demo state and
a concrete finished live world with a stale poller. -/
theorem terminal_quiescence_witness :
    processDemoStepS [] termDemoState = (termDemoState, false) ∧
    (fireCb termWorld 0).shared = termWorld.shared :=
  ⟨terminal_quiescence.1 [] termDemoState (by decide) rfl rfl,
   terminal_quiescence.2 termWorld 0 { run := 0, kind := CbKind.checkDone }
     { queue := [], processing := false, connected := false } rfl rfl rfl rfl rfl rfl rfl⟩

/--
C7 (amended): an error message, or the transport error callback,
immediately forces done to true, phase to idle and clears the streaming
flag, leaving the visible tokens and counts in place; the transport
close callback clears only the streaming flag and leaves phase, done,
visible tokens and counts untouched (no rollback in either case).
-/
theorem error_close_effects (s : DashState) :
    (streamErrorShared s).done = true ∧
    (streamErrorShared s).phase = NetworkPhase.idle ∧
    (streamErrorShared s).isStreaming = false ∧
    (streamErrorShared s).visibleTokens = s.visibleTokens ∧
    (streamErrorShared s).counts = s.counts ∧
    (streamCloseShared s).isStreaming = false ∧
    (streamCloseShared s).done = s.done ∧
    (streamCloseShared s).phase = s.phase ∧
    (streamCloseShared s).visibleTokens = s.visibleTokens ∧
    (streamCloseShared s).counts = s.counts :=
  ⟨rfl, rfl, rfl, rfl, rfl, rfl, rfl, rfl, rfl, rfl⟩

/--
C7 as stated fails for transport closure: closing mid-stream leaves the
phase and the done flag untouched instead of forcing phase idle and
done true.
-/
theorem close_counterexample :
    ¬((streamCloseShared { initDashState with phase := NetworkPhase.drafting, isStreaming := true }).phase = NetworkPhase.idle ∧
      (streamCloseShared { initDashState with phase := NetworkPhase.drafting, isStreaming := true }).done = true) := by
  decide

/--
C8: a round message sets the displayed acceptance rate verbatim to the
reported ratio times 100; a done message does the same and additionally
replaces the local accepted-draft-token estimate with the authoritative
draft tokens accepted count; a done message with acceptance rate 0.75
yields exactly 75.
-/
theorem acceptance_rate_passthrough :
    (∀ (s : DashState) (r : RoundEvent),
      (roundShared s r).acceptanceRate = r.acceptance_rate * 100) ∧
    (∀ (s : DashState) (d : InferenceResponse),
      (doneMetricsShared s d).acceptanceRate = d.acceptance_rate * 100 ∧
      (doneMetricsShared s d).acceptedDraftTokens = d.draft_tokens_accepted) ∧
    (doneMetricsShared initDashState doneExample).acceptanceRate = 75 := by
  refine ⟨fun s r => rfl, fun s d => ⟨rfl, rfl⟩, ?_⟩
  show (0.75 : ℚ) * 100 = 75
  norm_num

/--
C10: acknowledging a packet id removes exactly the packets carrying
that id, keeps every other packet in its original relative order (the
result is a sublist of the original list), and is a no-op when no
active packet carries the id; no other component of the state changes.
-/
theorem packet_ack_frame (s : DashState) (i : Nat) :
    ((handlePacketDone s i).pstate.packets).Sublist s.pstate.packets ∧
    (∀ pk : PacketEvent,
      pk ∈ (handlePacketDone s i).pstate.packets ↔ pk ∈ s.pstate.packets ∧ pk.id ≠ i) ∧
    ((∀ pk ∈ s.pstate.packets, pk.id ≠ i) → handlePacketDone s i = s) ∧
    (handlePacketDone s i).counts = s.counts ∧
    (handlePacketDone s i).visibleTokens = s.visibleTokens ∧
    (handlePacketDone s i).phase = s.phase ∧
    (handlePacketDone s i).done = s.done ∧
    (handlePacketDone s i).pstate.packetId = s.pstate.packetId ∧
    (handlePacketDone s i).pstate.buffer = s.pstate.buffer := by
  refine ⟨List.filter_sublist _, ?_, ?_, rfl, rfl, rfl, rfl, rfl, rfl⟩
  · intro pk
    simp [handlePacketDone, List.mem_filter]
  · intro hall
    have hfil : s.pstate.packets.filter (fun pk => pk.id ≠ i) = s.pstate.packets :=
      List.filter_eq_self.mpr (by intro a ha; simpa using hall a ha)
    show ({ s with pstate :=
        { s.pstate with packets := s.pstate.packets.filter (fun pk => pk.id ≠ i) } } :
          DashState) = s
    rw [hfil]

/-- Witness for the packet acknowledgement frame property at a concrete
state and id. -/
theorem packet_ack_frame_witness :
    handlePacketDone initDashState 3 = initDashState :=
  (packet_ack_frame initDashState 3).2.2.1 (by decide)

/--
C3 evidence: the restart discipline is violated by the code. After a
live run has animated one token and queued a second, re-submitting
seeds a fresh run state (empty visible tokens, zero counts) but leaves
the previous run continuation timer pending, because handleSubmit only
clears the demo timer stored in timeoutRef while the live
processTokenQueue chain uses untracked setTimeout calls. When that
stale callback fires it drains the old run queue into the new run
state, mutating the new run visible tokens and counts.
-/
theorem stale_callback_mutates_new_run :
    traceW4.shared.visibleTokens = [] ∧
    traceW4.shared.counts = ⟨0, 0, 0, 0⟩ ∧
    traceW4.shared.done = false ∧
    traceW4.pending = [{ run := 0, kind := CbKind.procQueue }] ∧
    currentRun traceW4 = 1 ∧
    (fireCb traceW4 0).shared.visibleTokens =
      [{ text := " beta", type := TokenType.accepted, phase := RenderPhase.settled }] ∧
    (fireCb traceW4 0).shared.counts = ⟨1, 0, 0, 1⟩ := by decide
